import Mathlib

/-
Verification of the mortgage-bot core (bot.py, config.py) against its
specification.  Numbers are embedded as exact rationals (ℚ); Python's
float arithmetic is modelled by field arithmetic on ℚ, and Python code
that can raise an exception is embedded as an Option-valued function
(none = an exception escapes).
-/

namespace Mortgage

/-! ## Number parsing (bot.py, parse_number) -/

/-- Embedding of Python str.strip on the ASCII whitespace fragment:
drops leading and trailing whitespace characters. -/
def pyStrip (l : List Char) : List Char :=
  ((l.dropWhile Char.isWhitespace).reverse.dropWhile Char.isWhitespace).reverse

/-- Embedding of Python str.replace with single-character pattern and
single-character replacement: replaces every occurrence of a by b. -/
def replaceChar (l : List Char) (a b : Char) : List Char :=
  l.map fun c => if c = a then b else c

/-- Embedding of Python str.replace with single-character pattern and
empty replacement: removes every occurrence of a. -/
def removeChar (l : List Char) (a : Char) : List Char :=
  l.filter fun c => c != a

/-- Value of a list of decimal digit characters, most significant first. -/
def digitsToNat (l : List Char) : Nat :=
  l.foldl (fun acc c => 10 * acc + (c.toNat - 48)) 0

/-- All characters are decimal digits. -/
def allDigits (l : List Char) : Bool :=
  l.all Char.isDigit

/-- Strips one optional leading sign, returning (isNegative, rest). -/
def splitSign (l : List Char) : Bool × List Char :=
  match l with
  | [] => (false, [])
  | c :: r =>
    if c = '-' then (true, r) else if c = '+' then (false, r) else (false, l)

/-- Mantissa of a Python float literal: digits with at most one decimal
point and at least one digit overall. -/
def parseMantissa (l : List Char) : Option ℚ :=
  match l.span (fun c => c != '.') with
  | (ip, []) =>
    if ip ≠ [] ∧ allDigits ip then some (digitsToNat ip : ℚ) else none
  | (ip, _ :: fp) =>
    if (ip ≠ [] ∨ fp ≠ []) ∧ allDigits ip ∧ allDigits fp then
      some ((digitsToNat ip : ℚ) + (digitsToNat fp : ℚ) / (10 : ℚ) ^ fp.length)
    else none

/-- Exponent part of a Python float literal (after the e/E): optional
sign then at least one digit. -/
def parseExponent (l : List Char) : Option ℤ :=
  let p := splitSign l
  if p.2 ≠ [] ∧ allDigits p.2 then
    some (if p.1 then -(digitsToNat p.2 : ℤ) else (digitsToNat p.2 : ℤ))
  else none

/-- Embedding of Python float(string) on finite decimal and scientific
literals: optional sign, digits with at most one decimal point, optional
e/E exponent.  The special literals inf and nan and underscore digit
grouping are outside the modelled fragment (nothing in the spec or the
repository's tests exercises them). -/
def pyFloatOfChars (l : List Char) : Option ℚ :=
  let p := splitSign l
  match p.2.span (fun c => c != 'e' && c != 'E') with
  | (mant, rest) =>
    let e? : Option ℤ :=
      match rest with
      | [] => some 0
      | _ :: er => parseExponent er
    match parseMantissa mant, e? with
    | some mv, some e => some ((if p.1 then -mv else mv) * (10 : ℚ) ^ e)
    | _, _ => none

/-- Embedding of bot.py parse_number: strip surrounding whitespace,
replace comma by dot, remove spaces, then parse as a float; a parse
failure yields none (Python catches the ValueError and returns None). -/
def parse_number (text : String) : Option ℚ :=
  pyFloatOfChars (removeChar (replaceChar (pyStrip text.data) ',' '.') ' ')

/-! ## Configuration constants (config.py) -/

def MIN_LOAN_TERM_YEARS : ℚ := 1

def MAX_LOAN_TERM_YEARS : ℚ := 30

def MIN_INTEREST_RATE : ℚ := 1/10

def MAX_INTEREST_RATE : ℚ := 30

/-! ## Amortization calculator (bot.py, calculate_monthly_payment) -/

/-- Result dictionary of calculate_monthly_payment. -/
structure CalcResult where
  principal : ℚ
  monthly_payment : ℚ
  total_payment : ℚ
  total_interest : ℚ
  months : ℤ
deriving DecidableEq, Repr

/-- Embedding of bot.py calculate_monthly_payment over exact rationals.
Mirrors the source line by line: principal, months, the zero-rate
straight-line branch, otherwise the annuity formula, then the totals. -/
def calculate_monthly_payment (loan_amount down_payment : ℚ) (years : ℤ)
    (annual_rate_percent : ℚ) : CalcResult :=
  let principal := loan_amount - down_payment
  let months := years * 12
  let monthly_payment :=
    if annual_rate_percent = 0 then principal / (months : ℚ)
    else
      let monthly_rate := annual_rate_percent / 12 / 100
      principal * (monthly_rate * (1 + monthly_rate) ^ months) /
        ((1 + monthly_rate) ^ months - 1)
  let total_payment := monthly_payment * (months : ℚ)
  let total_interest := total_payment - principal
  { principal := principal
    monthly_payment := monthly_payment
    total_payment := total_payment
    total_interest := total_interest
    months := months }

/-! ## Session store (bot.py: sessions, get_session, clear_session) -/

/-- A session record: the four per-chat dictionary entries, each
initialised to None by get_session. -/
structure Session where
  loan_amount : Option ℚ
  down_payment : Option ℚ
  loan_term : Option ℤ
  interest_rate : Option ℚ
deriving DecidableEq, Repr

/-- The freshly created session of get_session: every field None. -/
def emptySession : Session :=
  { loan_amount := none, down_payment := none, loan_term := none,
    interest_rate := none }

/-- The global in-memory session map, keyed by chat id. -/
def Sessions : Type := ℤ → Option Session

/-- Point update of the session map. -/
def setSession (ss : Sessions) (chat : ℤ) (v : Option Session) : Sessions :=
  fun c => if c = chat then v else ss c

/-- Embedding of bot.py get_session: returns the stored session, creating
an empty one first when the chat has none; the first component is the
session map after the call. -/
def get_session (ss : Sessions) (chat : ℤ) : Sessions × Session :=
  match ss chat with
  | some s => (ss, s)
  | none => (setSession ss chat (some emptySession), emptySession)

/-- Embedding of bot.py clear_session: deletes the entry if present. -/
def clear_session (ss : Sessions) (chat : ℤ) : Sessions :=
  match ss chat with
  | some _ => setSession ss chat none
  | none => ss

/-! ## Conversation state machine (bot.py handlers and conv_handler) -/

/-- The four conversation states LOAN_AMOUNT, DOWN_PAYMENT, LOAN_TERM,
INTEREST_RATE (= range(4) in bot.py). -/
inductive Step where
  | loanAmount
  | downPayment
  | loanTerm
  | interestRate
deriving DecidableEq, Repr

/-- Value returned by a conversation handler: either the next state key
or ConversationHandler.END. -/
inductive ConvResult where
  | toStep (s : Step)
  | endConv
deriving DecidableEq, Repr

/-- The outbound reply of one turn, as a tagged template with the
interpolated values (the literal message strings of bot.py carry exactly
these data). -/
inductive Reply where
  | welcome
  | invalidLoanAmount
  | loanAmountOk (amount : ℚ)
  | invalidDownPayment
  | downPaymentTooLarge (amount loanAmount : ℚ)
  | downPaymentOk (amount : ℚ)
  | invalidLoanTerm
  | loanTermOk (years : ℤ)
  | invalidRate
  | results (loanAmount downPayment : ℚ) (years : ℤ) (rate : ℚ)
      (r : CalcResult)
  | cancelled
  | helpDefault
deriving DecidableEq, Repr

/-- Python int() on a rational: truncation toward zero. -/
def pyInt (q : ℚ) : ℤ :=
  if 0 ≤ q then ⌊q⌋ else ⌈q⌉

/-- Embedding of bot.py start: clears any existing session, creates a
fresh one, sends the welcome prompt, returns LOAN_AMOUNT. -/
def start (ss : Sessions) (chat : ℤ) : Sessions × Reply × ConvResult :=
  let ss1 := clear_session ss chat
  let p := get_session ss1 chat
  (p.1, Reply.welcome, ConvResult.toStep Step.loanAmount)

/-- Embedding of bot.py cancel: clears the session, confirms, END. -/
def cancel (ss : Sessions) (chat : ℤ) : Sessions × Reply × ConvResult :=
  (clear_session ss chat, Reply.cancelled, ConvResult.endConv)

/-- Embedding of bot.py handle_loan_amount. -/
def handle_loan_amount (ss : Sessions) (chat : ℤ) (text : String) :
    Sessions × Reply × ConvResult :=
  match parse_number text with
  | none => (ss, Reply.invalidLoanAmount, ConvResult.toStep Step.loanAmount)
  | some amount =>
    if amount ≤ 0 then
      (ss, Reply.invalidLoanAmount, ConvResult.toStep Step.loanAmount)
    else
      let p := get_session ss chat
      (setSession p.1 chat (some { p.2 with loan_amount := some amount }),
        Reply.loanAmountOk amount, ConvResult.toStep Step.downPayment)

/-- Embedding of bot.py handle_down_payment.  The handler first calls
get_session and reads loan_amount, then validates; comparing a parsed
amount against a still-unset (None) loan_amount would raise a TypeError
in Python, embedded here as the value none. -/
def handle_down_payment (ss : Sessions) (chat : ℤ) (text : String) :
    Option (Sessions × Reply × ConvResult) :=
  let amount? := parse_number text
  let p := get_session ss chat
  match amount? with
  | none =>
    some (p.1, Reply.invalidDownPayment, ConvResult.toStep Step.downPayment)
  | some amount =>
    if amount < 0 then
      some (p.1, Reply.invalidDownPayment, ConvResult.toStep Step.downPayment)
    else
      match p.2.loan_amount with
      | none => none
      | some loanAmount =>
        if amount ≥ loanAmount then
          some (p.1, Reply.downPaymentTooLarge amount loanAmount,
            ConvResult.toStep Step.downPayment)
        else
          some (setSession p.1 chat
              (some { p.2 with down_payment := some amount }),
            Reply.downPaymentOk amount, ConvResult.toStep Step.loanTerm)

/-- Embedding of bot.py handle_loan_term. -/
def handle_loan_term (ss : Sessions) (chat : ℤ) (text : String) :
    Sessions × Reply × ConvResult :=
  match parse_number text with
  | none => (ss, Reply.invalidLoanTerm, ConvResult.toStep Step.loanTerm)
  | some years =>
    if ¬(MIN_LOAN_TERM_YEARS ≤ years ∧ years ≤ MAX_LOAN_TERM_YEARS) then
      (ss, Reply.invalidLoanTerm, ConvResult.toStep Step.loanTerm)
    else
      let p := get_session ss chat
      (setSession p.1 chat (some { p.2 with loan_term := some (pyInt years) }),
        Reply.loanTermOk (pyInt years), ConvResult.toStep Step.interestRate)

/-- Embedding of bot.py handle_interest_rate.  After validating the rate
it stores it, then calls the calculator on the session's loan_amount,
down_payment and loan_term; a still-unset (None) field there would raise
a TypeError in Python, embedded as the value none.  On success the
session is cleared and the formatted report is the reply. -/
def handle_interest_rate (ss : Sessions) (chat : ℤ) (text : String) :
    Option (Sessions × Reply × ConvResult) :=
  match parse_number text with
  | none =>
    some (ss, Reply.invalidRate, ConvResult.toStep Step.interestRate)
  | some rate =>
    if ¬(MIN_INTEREST_RATE ≤ rate ∧ rate ≤ MAX_INTEREST_RATE) then
      some (ss, Reply.invalidRate, ConvResult.toStep Step.interestRate)
    else
      let p := get_session ss chat
      let ss2 := setSession p.1 chat (some { p.2 with interest_rate := some rate })
      match p.2.loan_amount, p.2.down_payment, p.2.loan_term with
      | some la, some dp, some lt =>
        let r := calculate_monthly_payment la dp lt rate
        some (clear_session ss2 chat, Reply.results la dp lt rate r,
          ConvResult.endConv)
      | _, _, _ => none

/-- Embedding of bot.py handle_unknown (messages outside a conversation):
the generic greeting/help reply, no state change. -/
def handle_unknown : Reply :=
  Reply.helpDefault

/-! ## Dispatcher (bot.py main: ConversationHandler wiring) -/

/-- One inbound turn: the /start command, the /cancel command, or a
non-command text message. -/
inductive Turn where
  | start
  | cancel
  | text (s : String)

/-- Whole-bot state: the session map plus, per chat, the
ConversationHandler state key (none = no active conversation). -/
structure BotState where
  sessions : Sessions
  conv : ℤ → Option Step

/-- Point update of the per-chat conversation state. -/
def setConv (cv : ℤ → Option Step) (chat : ℤ) (v : Option Step) :
    ℤ → Option Step :=
  fun c => if c = chat then v else cv c

/-- Applies a handler result: new session map, and the conversation key
moves to the returned state (removed on END). -/
def applyResult (st : BotState) (chat : ℤ) (ss : Sessions)
    (cr : ConvResult) : BotState :=
  { sessions := ss
    conv := setConv st.conv chat
      (match cr with
       | ConvResult.toStep s => some s
       | ConvResult.endConv => none) }

/-- Embedding of the ConversationHandler dispatch: /start always runs
start (entry point or fallback); /cancel runs cancel inside a
conversation and is unanswered outside one (no handler matches a
command there); a text turn runs the active state's handler, or
handle_unknown when no conversation is active.  The outer none embeds an
exception escaping the handler; the inner Option Reply is the outbound
message (none = no reply sent). -/
def processTurn (st : BotState) (chat : ℤ) (t : Turn) :
    Option (BotState × Option Reply) :=
  match t with
  | Turn.start =>
    let q := start st.sessions chat
    some (applyResult st chat q.1 q.2.2, some q.2.1)
  | Turn.cancel =>
    match st.conv chat with
    | some _ =>
      let q := cancel st.sessions chat
      some (applyResult st chat q.1 q.2.2, some q.2.1)
    | none => some (st, none)
  | Turn.text s =>
    match st.conv chat with
    | none => some (st, some handle_unknown)
    | some Step.loanAmount =>
      let q := handle_loan_amount st.sessions chat s
      some (applyResult st chat q.1 q.2.2, some q.2.1)
    | some Step.downPayment =>
      match handle_down_payment st.sessions chat s with
      | some q => some (applyResult st chat q.1 q.2.2, some q.2.1)
      | none => none
    | some Step.loanTerm =>
      let q := handle_loan_term st.sessions chat s
      some (applyResult st chat q.1 q.2.2, some q.2.1)
    | some Step.interestRate =>
      match handle_interest_rate st.sessions chat s with
      | some q => some (applyResult st chat q.1 q.2.2, some q.2.1)
      | none => none

/-- The bot's initial state: no sessions, no active conversations. -/
def initState : BotState :=
  { sessions := fun _ => none, conv := fun _ => none }

/-- States reachable from the initial state by any sequence of turns
that does not crash. -/
inductive Reachable : BotState → Prop where
  | init : Reachable initState
  | next {st : BotState} (chat : ℤ) (t : Turn) {p : BotState × Option Reply} :
      Reachable st → processTurn st chat t = some p → Reachable p.1

/-- Successor state of one turn (the state itself if the turn crashes),
convenient for exhibiting concrete reachable states. -/
def stepState (st : BotState) (chat : ℤ) (t : Turn) : BotState :=
  match processTurn st chat t with
  | some p => p.1
  | none => st

/-- Relation between one chat's conversation position and its stored
session: exactly the fields of the steps already passed are set, and
they hold values the step validators accepted. -/
def chatInv (cv : Option Step) (sess : Option Session) : Prop :=
  match cv with
  | none => sess = none
  | some Step.loanAmount => sess = some emptySession
  | some Step.downPayment =>
    ∃ a : ℚ, 0 < a ∧
      sess = some (Session.mk (some a) none none none)
  | some Step.loanTerm =>
    ∃ (a d : ℚ), 0 < a ∧ 0 ≤ d ∧ d < a ∧
      sess = some (Session.mk (some a) (some d) none none)
  | some Step.interestRate =>
    ∃ (a d : ℚ) (y : ℤ), 0 < a ∧ 0 ≤ d ∧ d < a ∧ 1 ≤ y ∧ y ≤ 30 ∧
      sess = some (Session.mk (some a) (some d) (some y) none)

/-- The step-order invariant over the whole bot state. -/
def Inv (st : BotState) : Prop :=
  ∀ chat : ℤ, chatInv (st.conv chat) (st.sessions chat)

/-- The acceptance condition of each step's validator, read off the four
handlers: which texts a given step accepts given the chat's session. -/
def accepts (σ : Session) (step : Step) (text : String) : Prop :=
  match parse_number text, step with
  | none, _ => False
  | some a, Step.loanAmount => 0 < a
  | some d, Step.downPayment =>
    0 ≤ d ∧
      (match σ.loan_amount with
       | some la => d < la
       | none => False)
  | some y, Step.loanTerm =>
    MIN_LOAN_TERM_YEARS ≤ y ∧ y ≤ MAX_LOAN_TERM_YEARS
  | some r, Step.interestRate =>
    MIN_INTEREST_RATE ≤ r ∧ r ≤ MAX_INTEREST_RATE

/-- The validation-error replies (re-prompts) among the templates. -/
def isErrorReply : Reply → Bool
  | Reply.invalidLoanAmount => true
  | Reply.invalidDownPayment => true
  | Reply.downPaymentTooLarge _ _ => true
  | Reply.invalidLoanTerm => true
  | Reply.invalidRate => true
  | _ => false

/-- Concrete four-turn run used by the witnesses: /start, loan amount 2,
down payment 0, term 1. -/
def stA : BotState := stepState initState 0 Turn.start

def stB : BotState := stepState stA 0 (Turn.text ("2"))

def stC : BotState := stepState stB 0 (Turn.text ("0"))

def stD : BotState := stepState stC 0 (Turn.text ("1"))

/-! ## Store lemmas -/

@[simp]
theorem setSession_self (ss : Sessions) (chat : ℤ) (v : Option Session) :
    setSession ss chat v chat = v := by
  simp [setSession]

theorem setSession_ne (ss : Sessions) (chat c : ℤ) (v : Option Session)
    (h : c ≠ chat) : setSession ss chat v c = ss c := by
  simp [setSession, h]

@[simp]
theorem setConv_self (cv : ℤ → Option Step) (chat : ℤ) (v : Option Step) :
    setConv cv chat v chat = v := by
  simp [setConv]

theorem setConv_ne (cv : ℤ → Option Step) (chat c : ℤ) (v : Option Step)
    (h : c ≠ chat) : setConv cv chat v c = cv c := by
  simp [setConv, h]

theorem get_session_of_some {ss : Sessions} {chat : ℤ} {s : Session}
    (h : ss chat = some s) : get_session ss chat = (ss, s) := by
  simp [get_session, h]

theorem get_session_fst_ne (ss : Sessions) (chat c : ℤ) (h : c ≠ chat) :
    (get_session ss chat).1 c = ss c := by
  unfold get_session
  cases hs : ss chat <;> simp [setSession_ne _ _ _ _ h]

theorem get_session_fst_self (ss : Sessions) (chat : ℤ) :
    (get_session ss chat).1 chat = some (get_session ss chat).2 := by
  unfold get_session
  cases hs : ss chat <;> simp [hs]

theorem clear_session_self (ss : Sessions) (chat : ℤ) :
    clear_session ss chat chat = none := by
  unfold clear_session
  cases hs : ss chat <;> simp [hs]

theorem clear_session_ne (ss : Sessions) (chat c : ℤ) (h : c ≠ chat) :
    clear_session ss chat c = ss c := by
  unfold clear_session
  cases hs : ss chat <;> simp [setSession_ne _ _ _ _ h]

theorem start_fst_ne (ss : Sessions) (chat c : ℤ) (h : c ≠ chat) :
    (start ss chat).1 c = ss c := by
  unfold start
  simp [get_session_fst_ne _ _ _ h, clear_session_ne _ _ _ h]

theorem start_fst_self (ss : Sessions) (chat : ℤ) :
    (start ss chat).1 chat = some emptySession := by
  unfold start
  simp [get_session, clear_session_self]

theorem handle_loan_amount_fst_ne (ss : Sessions) (chat c : ℤ) (s : String)
    (h : c ≠ chat) : (handle_loan_amount ss chat s).1 c = ss c := by
  unfold handle_loan_amount
  cases parse_number s with
  | none => rfl
  | some a =>
    by_cases ha : a ≤ 0 <;>
      simp [ha, setSession_ne _ _ _ _ h, get_session_fst_ne _ _ _ h]

theorem handle_down_payment_fst_ne {ss : Sessions} {chat : ℤ} {s : String}
    {q : Sessions × Reply × ConvResult} (c : ℤ)
    (hq : handle_down_payment ss chat s = some q) (h : c ≠ chat) :
    q.1 c = ss c := by
  unfold handle_down_payment at hq
  dsimp only at hq
  split at hq
  · injection hq with hq
    subst hq
    exact get_session_fst_ne _ _ _ h
  · split at hq
    · injection hq with hq
      subst hq
      exact get_session_fst_ne _ _ _ h
    · split at hq
      · exact Option.noConfusion hq
      · split at hq
        · injection hq with hq
          subst hq
          exact get_session_fst_ne _ _ _ h
        · injection hq with hq
          subst hq
          simp only [setSession_ne _ _ _ _ h]
          exact get_session_fst_ne _ _ _ h

theorem handle_loan_term_fst_ne (ss : Sessions) (chat c : ℤ) (s : String)
    (h : c ≠ chat) : (handle_loan_term ss chat s).1 c = ss c := by
  unfold handle_loan_term
  cases parse_number s with
  | none => rfl
  | some y =>
    by_cases hy : MIN_LOAN_TERM_YEARS ≤ y ∧ y ≤ MAX_LOAN_TERM_YEARS <;>
      simp [hy, setSession_ne _ _ _ _ h, get_session_fst_ne _ _ _ h]

theorem handle_interest_rate_fst_ne {ss : Sessions} {chat : ℤ} {s : String}
    {q : Sessions × Reply × ConvResult} (c : ℤ)
    (hq : handle_interest_rate ss chat s = some q) (h : c ≠ chat) :
    q.1 c = ss c := by
  unfold handle_interest_rate at hq
  dsimp only at hq
  split at hq
  · injection hq with hq
    subst hq
    rfl
  · split at hq
    · injection hq with hq
      subst hq
      rfl
    · split at hq
      · injection hq with hq
        subst hq
        simp only [clear_session_ne _ _ _ h, setSession_ne _ _ _ _ h]
        exact get_session_fst_ne _ _ _ h
      · exact Option.noConfusion hq

/-- One processed turn leaves every other chat's stored session and
conversation position untouched. -/
theorem processTurn_frame {st : BotState} {chat : ℤ} {t : Turn}
    {p : BotState × Option Reply} (h : processTurn st chat t = some p)
    (c : ℤ) (hc : c ≠ chat) :
    p.1.sessions c = st.sessions c ∧ p.1.conv c = st.conv c := by
  cases t with
  | start =>
    injection h with h
    subst h
    exact ⟨by simpa [applyResult] using start_fst_ne st.sessions chat c hc,
      by simp [applyResult, setConv_ne _ _ _ _ hc]⟩
  | cancel =>
    unfold processTurn at h
    dsimp only at h
    split at h
    · injection h with h
      subst h
      exact ⟨by simpa [applyResult, cancel] using clear_session_ne st.sessions chat c hc,
        by simp [applyResult, setConv_ne _ _ _ _ hc]⟩
    · injection h with h
      subst h
      exact ⟨rfl, rfl⟩
  | text s =>
    unfold processTurn at h
    dsimp only at h
    split at h
    · injection h with h
      subst h
      exact ⟨rfl, rfl⟩
    · injection h with h
      subst h
      exact ⟨by simpa [applyResult] using handle_loan_amount_fst_ne st.sessions chat c s hc,
        by simp [applyResult, setConv_ne _ _ _ _ hc]⟩
    · split at h
      · injection h with h
        subst h
        next q hq =>
          exact ⟨by simpa [applyResult] using handle_down_payment_fst_ne c hq hc,
            by simp [applyResult, setConv_ne _ _ _ _ hc]⟩
      · exact Option.noConfusion h
    · injection h with h
      subst h
      exact ⟨by simpa [applyResult] using handle_loan_term_fst_ne st.sessions chat c s hc,
        by simp [applyResult, setConv_ne _ _ _ _ hc]⟩
    · split at h
      · injection h with h
        subst h
        next q hq =>
          exact ⟨by simpa [applyResult] using handle_interest_rate_fst_ne c hq hc,
            by simp [applyResult, setConv_ne _ _ _ _ hc]⟩
      · exact Option.noConfusion h

/-! ## The step-order invariant -/

theorem inv_initState : Inv initState := by
  intro chat
  simp [initState, chatInv]

theorem pyInt_bounds {y : ℚ} (h1 : 1 ≤ y) (h2 : y ≤ 30) :
    1 ≤ pyInt y ∧ pyInt y ≤ 30 := by
  have h0 : 0 ≤ y := le_trans (by norm_num) h1
  rw [pyInt, if_pos h0]
  refine ⟨Int.le_floor.mpr (by exact_mod_cast h1), ?_⟩
  have hf : (⌊y⌋ : ℚ) ≤ 30 := le_trans (Int.floor_le y) h2
  exact_mod_cast hf

/-- One processed turn preserves the step-order invariant. -/
theorem processTurn_preserves_inv {st : BotState} {chat : ℤ} {t : Turn}
    {p : BotState × Option Reply} (hInv : Inv st)
    (h : processTurn st chat t = some p) : Inv p.1 := by
  intro c
  by_cases hc : c = chat
  case neg =>
    obtain ⟨h1, h2⟩ := processTurn_frame h c hc
    rw [h1, h2]
    exact hInv c
  case pos =>
  subst hc
  cases t with
  | start =>
    injection h with h
    subst h
    simp [applyResult, chatInv, start, get_session, clear_session_self]
  | cancel =>
    unfold processTurn at h
    dsimp only at h
    split at h
    · injection h with h
      subst h
      simp [applyResult, chatInv, cancel, clear_session_self]
    · injection h with h
      subst h
      exact hInv c
  | text s =>
    unfold processTurn at h
    dsimp only at h
    split at h
    · injection h with h
      subst h
      exact hInv c
    · next heq =>
      injection h with h
      subst h
      have hsess : st.sessions c = some emptySession := by
        have hx := hInv c
        rw [heq] at hx
        simpa [chatInv] using hx
      dsimp only [applyResult]
      unfold handle_loan_amount
      cases hp : parse_number s with
      | none => simp [hp, chatInv, hsess]
      | some a =>
        by_cases ha : a ≤ 0
        · simp [hp, ha, chatInv, hsess]
        · simp only [hp, ha, chatInv, get_session_of_some hsess, if_false,
            setConv_self, setSession_self]
          refine ⟨a, lt_of_not_le ha, ?_⟩
          simp [emptySession]
    · next heq =>
      split at h
      · next q hq =>
        injection h with h
        subst h
        have hx := hInv c
        rw [heq] at hx
        obtain ⟨a, ha, hsess⟩ := hx
        dsimp only [applyResult]
        unfold handle_down_payment at hq
        dsimp only at hq
        rw [get_session_of_some hsess] at hq
        cases hp : parse_number s with
        | none =>
          rw [hp] at hq
          injection hq with hq
          subst hq
          simp only [setConv_self]
          exact ⟨a, ha, hsess⟩
        | some d =>
          simp only [hp] at hq
          by_cases hd : d < 0
          · rw [if_pos hd] at hq
            injection hq with hq
            subst hq
            simp only [setConv_self]
            exact ⟨a, ha, hsess⟩
          · rw [if_neg hd] at hq
            by_cases hge : d ≥ a
            · rw [if_pos hge] at hq
              injection hq with hq
              subst hq
              simp only [setConv_self]
              exact ⟨a, ha, hsess⟩
            · rw [if_neg hge] at hq
              injection hq with hq
              subst hq
              simp only [setConv_self, chatInv, setSession_self]
              exact ⟨a, d, ha, not_lt.mp hd, not_le.mp hge, rfl⟩
      · exact Option.noConfusion h
    · next heq =>
      injection h with h
      subst h
      have hx := hInv c
      rw [heq] at hx
      obtain ⟨a, d, ha, hd0, hda, hsess⟩ := hx
      dsimp only [applyResult]
      unfold handle_loan_term
      cases hp : parse_number s with
      | none =>
        simp only [hp, setConv_self, chatInv]
        exact ⟨a, d, ha, hd0, hda, hsess⟩
      | some y =>
        simp only [hp]
        by_cases hy : MIN_LOAN_TERM_YEARS ≤ y ∧ y ≤ MAX_LOAN_TERM_YEARS
        · have hb := pyInt_bounds (by simpa [MIN_LOAN_TERM_YEARS] using hy.1)
            (by simpa [MAX_LOAN_TERM_YEARS] using hy.2)
          rw [if_neg (not_not_intro hy)]
          dsimp only
          rw [get_session_of_some hsess]
          simp only [setConv_self, setSession_self, chatInv]
          exact ⟨a, d, pyInt y, ha, hd0, hda, hb.1, hb.2, rfl⟩
        · rw [if_pos hy]
          simp only [setConv_self, chatInv]
          exact ⟨a, d, ha, hd0, hda, hsess⟩
    · next heq =>
      split at h
      · next q hq =>
        injection h with h
        subst h
        have hx := hInv c
        rw [heq] at hx
        obtain ⟨a, d, y, ha, hd0, hda, hy1, hy30, hsess⟩ := hx
        dsimp only [applyResult]
        unfold handle_interest_rate at hq
        dsimp only at hq
        cases hp : parse_number s with
        | none =>
          rw [hp] at hq
          injection hq with hq
          subst hq
          simp only [setConv_self, chatInv]
          exact ⟨a, d, y, ha, hd0, hda, hy1, hy30, hsess⟩
        | some r =>
          simp only [hp] at hq
          by_cases hr : MIN_INTEREST_RATE ≤ r ∧ r ≤ MAX_INTEREST_RATE
          · rw [if_neg (not_not_intro hr)] at hq
            rw [get_session_of_some hsess] at hq
            injection hq with hq
            subst hq
            simp only [setConv_self, chatInv, clear_session_self]
          · rw [if_pos hr] at hq
            injection hq with hq
            subst hq
            simp only [setConv_self, chatInv]
            exact ⟨a, d, y, ha, hd0, hda, hy1, hy30, hsess⟩
      · exact Option.noConfusion h

/-- Every reachable state satisfies the step-order invariant. -/
theorem reachable_inv {st : BotState} (h : Reachable st) : Inv st := by
  induction h with
  | init => exact inv_initState
  | next chat t hr hp ih => exact processTurn_preserves_inv ih hp

/-! ## Evaluation and congruence lemmas -/

theorem reachable_stepState {st : BotState} (h : Reachable st) (chat : ℤ)
    (t : Turn) : Reachable (stepState st chat t) := by
  unfold stepState
  cases hp : processTurn st chat t with
  | none => exact h
  | some p => exact Reachable.next chat t h hp

theorem parse_two : parse_number ("2") = some 2 := by
  simp +decide [parse_number, pyFloatOfChars, parseMantissa, parseExponent,
    splitSign, pyStrip, replaceChar, removeChar, digitsToNat, allDigits,
    List.span, List.span.loop] <;> norm_num

theorem parse_zero : parse_number ("0") = some 0 := by
  simp +decide [parse_number, pyFloatOfChars, parseMantissa, parseExponent,
    splitSign, pyStrip, replaceChar, removeChar, digitsToNat, allDigits,
    List.span, List.span.loop] <;> norm_num

theorem parse_one : parse_number ("1") = some 1 := by
  simp +decide [parse_number, pyFloatOfChars, parseMantissa, parseExponent,
    splitSign, pyStrip, replaceChar, removeChar, digitsToNat, allDigits,
    List.span, List.span.loop] <;> norm_num

theorem parse_five : parse_number ("5") = some 5 := by
  simp +decide [parse_number, pyFloatOfChars, parseMantissa, parseExponent,
    splitSign, pyStrip, replaceChar, removeChar, digitsToNat, allDigits,
    List.span, List.span.loop] <;> norm_num

theorem parse_abc : parse_number ("abc") = none := by
  simp +decide [parse_number, pyFloatOfChars, parseMantissa, parseExponent,
    splitSign, pyStrip, replaceChar, removeChar, digitsToNat, allDigits,
    List.span, List.span.loop]

theorem pyInt_one : pyInt 1 = 1 := by
  norm_num [pyInt]

theorem setConv_eq_self {cv : ℤ → Option Step} {chat : ℤ} {v : Option Step}
    (h : cv chat = v) : setConv cv chat v = cv := by
  funext c
  by_cases hc : c = chat
  · subst hc
    simp [setConv, h]
  · simp [setConv, hc]

/-- Applying a same-step handler result with unchanged sessions is the
identity on the bot state. -/
theorem applyResult_self {st : BotState} {chat : ℤ} {step : Step}
    (h : st.conv chat = some step) :
    applyResult st chat st.sessions (ConvResult.toStep step) = st := by
  unfold applyResult
  rw [setConv_eq_self h]

theorem get_session_snd_congr {ss1 ss2 : Sessions} {chat : ℤ}
    (h : ss1 chat = ss2 chat) :
    (get_session ss1 chat).2 = (get_session ss2 chat).2 := by
  unfold get_session
  rw [h]
  cases ss2 chat <;> rfl

theorem handle_loan_amount_snd_congr (ss1 ss2 : Sessions) (chat : ℤ)
    (s : String) :
    (handle_loan_amount ss1 chat s).2 = (handle_loan_amount ss2 chat s).2 := by
  unfold handle_loan_amount
  cases parse_number s with
  | none => rfl
  | some a => by_cases ha : a ≤ 0 <;> simp [ha]

theorem handle_loan_term_snd_congr (ss1 ss2 : Sessions) (chat : ℤ)
    (s : String) :
    (handle_loan_term ss1 chat s).2 = (handle_loan_term ss2 chat s).2 := by
  unfold handle_loan_term
  cases parse_number s with
  | none => rfl
  | some y =>
    dsimp only
    by_cases hy : MIN_LOAN_TERM_YEARS ≤ y ∧ y ≤ MAX_LOAN_TERM_YEARS
    · rw [if_neg (not_not_intro hy), if_neg (not_not_intro hy)]
    · rw [if_pos hy, if_pos hy]

theorem handle_down_payment_snd_congr (ss1 ss2 : Sessions) (chat : ℤ)
    (s : String) (h : ss1 chat = ss2 chat) :
    Option.map Prod.snd (handle_down_payment ss1 chat s)
      = Option.map Prod.snd (handle_down_payment ss2 chat s) := by
  unfold handle_down_payment
  dsimp only
  rw [get_session_snd_congr h]
  cases parse_number s with
  | none => rfl
  | some d =>
    dsimp only
    by_cases hd : d < 0
    · rw [if_pos hd, if_pos hd]
      rfl
    · rw [if_neg hd, if_neg hd]
      cases (get_session ss2 chat).2.loan_amount with
      | none => rfl
      | some la => by_cases hge : d ≥ la <;> simp [hge]

theorem handle_interest_rate_snd_congr (ss1 ss2 : Sessions) (chat : ℤ)
    (s : String) (h : ss1 chat = ss2 chat) :
    Option.map Prod.snd (handle_interest_rate ss1 chat s)
      = Option.map Prod.snd (handle_interest_rate ss2 chat s) := by
  unfold handle_interest_rate
  dsimp only
  rw [get_session_snd_congr h]
  cases parse_number s with
  | none => rfl
  | some r =>
    dsimp only
    by_cases hr : MIN_INTEREST_RATE ≤ r ∧ r ≤ MAX_INTEREST_RATE
    · rw [if_neg (not_not_intro hr), if_neg (not_not_intro hr)]
      cases (get_session ss2 chat).2.loan_amount with
      | none =>
        cases (get_session ss2 chat).2.down_payment <;>
          cases (get_session ss2 chat).2.loan_term <;> rfl
      | some la =>
        cases (get_session ss2 chat).2.down_payment with
        | none => cases (get_session ss2 chat).2.loan_term <;> rfl
        | some dp => cases (get_session ss2 chat).2.loan_term <;> rfl
    · rw [if_pos hr, if_pos hr]
      rfl

theorem reachable_stA : Reachable stA :=
  reachable_stepState Reachable.init 0 Turn.start

theorem reachable_stB : Reachable stB :=
  reachable_stepState reachable_stA 0 (Turn.text ("2"))

theorem reachable_stC : Reachable stC :=
  reachable_stepState reachable_stB 0 (Turn.text ("0"))

theorem reachable_stD : Reachable stD :=
  reachable_stepState reachable_stC 0 (Turn.text ("1"))

theorem stA_conv : stA.conv 0 = some Step.loanAmount := by
  norm_num [stA, stepState, processTurn, applyResult, start, initState,
    get_session, clear_session, setConv]

theorem stA_sessions : stA.sessions 0 = some emptySession := by
  norm_num [stA, stepState, processTurn, applyResult, start, initState,
    get_session, clear_session, setSession]

theorem stA_conv_one : stA.conv 1 = none := by
  norm_num [stA, stepState, processTurn, applyResult, start, initState,
    get_session, clear_session, setConv]

theorem stA_sessions_one : stA.sessions 1 = none := by
  norm_num [stA, stepState, processTurn, applyResult, start, initState,
    get_session, clear_session, setSession]

theorem stB_conv : stB.conv 0 = some Step.downPayment := by
  norm_num [stB, stepState, processTurn, stA_conv, handle_loan_amount,
    parse_two, applyResult, setConv, get_session_of_some stA_sessions]

theorem stB_sessions : stB.sessions 0 = some (Session.mk (some 2) none none none) := by
  norm_num [stB, stepState, processTurn, stA_conv, handle_loan_amount,
    parse_two, applyResult, setSession, get_session_of_some stA_sessions,
    emptySession]

theorem stC_conv : stC.conv 0 = some Step.loanTerm := by
  norm_num [stC, stepState, processTurn, stB_conv, handle_down_payment,
    parse_zero, applyResult, setConv, get_session_of_some stB_sessions]

theorem stC_sessions : stC.sessions 0 = some (Session.mk (some 2) (some 0) none none) := by
  norm_num [stC, stepState, processTurn, stB_conv, handle_down_payment,
    parse_zero, applyResult, setSession, get_session_of_some stB_sessions]

theorem stD_conv : stD.conv 0 = some Step.interestRate := by
  norm_num [stD, stepState, processTurn, stC_conv, handle_loan_term,
    parse_one, applyResult, setConv, get_session_of_some stC_sessions,
    MIN_LOAN_TERM_YEARS, MAX_LOAN_TERM_YEARS]

theorem stD_sessions :
    stD.sessions 0 = some (Session.mk (some 2) (some 0) (some 1) none) := by
  norm_num [stD, stepState, processTurn, stC_conv, handle_loan_term,
    parse_one, applyResult, setSession, get_session_of_some stC_sessions,
    MIN_LOAN_TERM_YEARS, MAX_LOAN_TERM_YEARS, pyInt_one]

/-! ## Claim theorems -/

/-- Claim C1: for every valid input combination (loanAmount > downPayment
>= 0, termYears in [1,30], rate in [0,30]) the calculator returns
principal = loanAmount - downPayment, months = termYears * 12, the
annuity-formula monthly payment (with monthlyRate = rate/12/100) when
the rate is nonzero, totalPayment = monthlyPayment * months and
totalInterest = totalPayment - principal. -/
theorem claim_C1 (loanAmount downPayment : ℚ) (termYears : ℤ) (rate : ℚ)
    (hld : downPayment < loanAmount) (hd0 : 0 ≤ downPayment)
    (hy1 : 1 ≤ termYears) (hy30 : termYears ≤ 30)
    (hr0 : 0 ≤ rate) (hr30 : rate ≤ 30) :
    (calculate_monthly_payment loanAmount downPayment termYears rate).principal
        = loanAmount - downPayment ∧
    (calculate_monthly_payment loanAmount downPayment termYears rate).months
        = termYears * 12 ∧
    (rate ≠ 0 →
      (calculate_monthly_payment loanAmount downPayment termYears rate).monthly_payment
        = (loanAmount - downPayment)
            * (rate / 12 / 100 * (1 + rate / 12 / 100) ^ (termYears * 12))
            / ((1 + rate / 12 / 100) ^ (termYears * 12) - 1)) ∧
    (calculate_monthly_payment loanAmount downPayment termYears rate).total_payment
        = (calculate_monthly_payment loanAmount downPayment termYears rate).monthly_payment
            * ((termYears * 12 : ℤ) : ℚ) ∧
    (calculate_monthly_payment loanAmount downPayment termYears rate).total_interest
        = (calculate_monthly_payment loanAmount downPayment termYears rate).total_payment
            - (calculate_monthly_payment loanAmount downPayment termYears rate).principal := by
  refine ⟨rfl, rfl, ?_, rfl, rfl⟩
  intro hr
  unfold calculate_monthly_payment
  dsimp only
  rw [if_neg hr]

/-- Witness for C1 at loanAmount 2, downPayment 1, termYears 1, rate 12:
the principal is 1. -/
theorem claim_C1_witness : (calculate_monthly_payment 2 1 1 12).principal = 2 - 1 :=
  (claim_C1 2 1 1 12 (by norm_num) (by norm_num) (by norm_num) (by norm_num)
    (by norm_num) (by norm_num)).1

/-- Claim C8: at rate 0 the calculator returns monthly_payment exactly
principal / months and total_interest exactly 0. -/
theorem claim_C8 (loanAmount downPayment : ℚ) (termYears : ℤ)
    (hld : downPayment < loanAmount) (hd0 : 0 ≤ downPayment)
    (hy1 : 1 ≤ termYears) (hy30 : termYears ≤ 30) :
    (calculate_monthly_payment loanAmount downPayment termYears 0).monthly_payment
        = (loanAmount - downPayment) / ((termYears * 12 : ℤ) : ℚ) ∧
    (calculate_monthly_payment loanAmount downPayment termYears 0).total_interest = 0 := by
  have hm : ((termYears * 12 : ℤ) : ℚ) ≠ 0 := by
    have h0 : (0 : ℤ) < termYears * 12 := by nlinarith
    exact_mod_cast ne_of_gt h0
  constructor
  · unfold calculate_monthly_payment
    dsimp only
    rw [if_pos rfl]
  · unfold calculate_monthly_payment
    dsimp only
    rw [if_pos rfl, div_mul_cancel₀ _ hm, sub_self]

/-- Witness for C8 at loanAmount 2, downPayment 0, termYears 1. -/
theorem claim_C8_witness :
    (calculate_monthly_payment 2 0 1 0).monthly_payment
        = (2 - 0) / (((1 : ℤ) * 12 : ℤ) : ℚ) ∧
    (calculate_monthly_payment 2 0 1 0).total_interest = 0 :=
  claim_C8 2 0 1 (by norm_num) (by norm_num) (by norm_num) (by norm_num)

/-- Claim C5: parse_number strips surrounding whitespace, removes
embedded spaces, replaces comma decimal separators by dots, and yields
none instead of raising on empty, non-numeric, or multi-point input; in
particular the five round-trip examples of the spec hold. -/
theorem claim_C5 :
    (∀ text : String, parse_number text
        = pyFloatOfChars (removeChar (replaceChar (pyStrip text.data) ',' '.') ' ')) ∧
    parse_number ("5 000 000") = some 5000000 ∧
    parse_number ("12,5") = some (12.5 : ℚ) ∧
    parse_number ("12.5.5") = none ∧
    parse_number ("") = none ∧
    parse_number ("  5000  ") = some 5000 := by
  refine ⟨fun text => rfl, ?_, ?_, ?_, ?_, ?_⟩ <;>
    simp +decide [parse_number, pyFloatOfChars, parseMantissa, parseExponent,
      splitSign, pyStrip, replaceChar, removeChar, digitsToNat, allDigits,
      List.span, List.span.loop] <;> norm_num

/-- Claim C7: an interest-rate input parsing to r is rejected with the
range re-prompt exactly when r lies outside the configured closed range
[0.1, 30]; in particular the input 0 is rejected at the boundary even
though the calculator itself handles rate 0 as the straight-line case. -/
theorem claim_C7 (ss : Sessions) (chat : ℤ) (text : String) (r : ℚ)
    (hp : parse_number text = some r) :
    ((handle_interest_rate ss chat text
        = some (ss, Reply.invalidRate, ConvResult.toStep Step.interestRate))
      ↔ ¬(MIN_INTEREST_RATE ≤ r ∧ r ≤ MAX_INTEREST_RATE)) ∧
    MIN_INTEREST_RATE = 1/10 ∧ MAX_INTEREST_RATE = 30 ∧
    parse_number ("0") = some 0 ∧
    handle_interest_rate ss chat ("0")
        = some (ss, Reply.invalidRate, ConvResult.toStep Step.interestRate) ∧
    (∀ (la dp : ℚ) (y : ℤ),
      (calculate_monthly_payment la dp y 0).monthly_payment
        = (la - dp) / ((y * 12 : ℤ) : ℚ)) := by
  refine ⟨?_, rfl, rfl, parse_zero, ?_, ?_⟩
  · unfold handle_interest_rate
    simp only [hp]
    by_cases hr : MIN_INTEREST_RATE ≤ r ∧ r ≤ MAX_INTEREST_RATE
    · rw [if_neg (not_not_intro hr)]
      constructor
      · intro heq
        exfalso
        split at heq <;> simp at heq
      · intro hn
        exact absurd hr hn
    · rw [if_pos hr]
      simp [hr]
  · unfold handle_interest_rate
    simp only [parse_zero]
    rw [if_pos (by norm_num [MIN_INTEREST_RATE, MAX_INTEREST_RATE])]
  · intro la dp y
    unfold calculate_monthly_payment
    dsimp only
    rw [if_pos rfl]

/-- Witness for C7: the literal input 0 at the rate step is answered
with the range re-prompt and the state key stays at the rate step. -/
theorem claim_C7_witness :
    handle_interest_rate (fun _ => none) 0 ("0")
      = some ((fun _ => none : Sessions), Reply.invalidRate,
          ConvResult.toStep Step.interestRate) :=
  (claim_C7 (fun _ => none) 0 ("0") 0 parse_zero).2.2.2.2.1

/-- Claim C6: the loan-amount step stores the value and advances exactly
when the text parses to a number > 0; the down-payment step (with stored
loan amount L) stores d exactly when 0 <= d < L, and a d >= L is
rejected by an error citing both values. -/
theorem claim_C6 (ss : Sessions) (chat : ℤ) (text : String) (σ : Session)
    (L : ℚ) (hs : ss chat = some σ) (hl : σ.loan_amount = some L) :
    ((handle_loan_amount ss chat text).2.2 = ConvResult.toStep Step.downPayment
      ↔ ∃ a : ℚ, parse_number text = some a ∧ 0 < a) ∧
    (∀ a : ℚ, parse_number text = some a → 0 < a →
      (handle_loan_amount ss chat text).1 chat
        = some (Session.mk (some a) σ.down_payment σ.loan_term σ.interest_rate)) ∧
    ((∃ q, handle_down_payment ss chat text = some q
        ∧ q.2.2 = ConvResult.toStep Step.loanTerm)
      ↔ ∃ d : ℚ, parse_number text = some d ∧ 0 ≤ d ∧ d < L) ∧
    (∀ d : ℚ, parse_number text = some d → 0 ≤ d → d < L →
      handle_down_payment ss chat text
        = some (setSession ss chat
            (some (Session.mk σ.loan_amount (some d) σ.loan_term σ.interest_rate)),
          Reply.downPaymentOk d, ConvResult.toStep Step.loanTerm)) ∧
    (∀ d : ℚ, parse_number text = some d → 0 ≤ d → L ≤ d →
      handle_down_payment ss chat text
        = some (ss, Reply.downPaymentTooLarge d L,
            ConvResult.toStep Step.downPayment)) := by
  refine ⟨?_, ?_, ?_, ?_, ?_⟩
  · unfold handle_loan_amount
    cases hp : parse_number text with
    | none => simp
    | some a =>
      by_cases ha : a ≤ 0
      · simp [ha, not_lt.mpr ha]
      · simp [ha, lt_of_not_le ha]
  · intro a hp ha
    unfold handle_loan_amount
    simp only [hp]
    rw [if_neg (not_le.mpr ha)]
    rw [get_session_of_some hs]
    simp [setSession]
  · unfold handle_down_payment
    dsimp only
    rw [get_session_of_some hs]
    cases hp : parse_number text with
    | none => simp
    | some d =>
      dsimp only
      by_cases hd : d < 0
      · rw [if_pos hd]
        simp [not_le.mpr hd]
      · rw [if_neg hd]
        rw [hl]
        dsimp only
        by_cases hge : d ≥ L
        · rw [if_pos hge]
          simp [not_lt.mpr hge]
        · rw [if_neg hge]
          simp [le_of_not_lt hd, lt_of_not_ge hge]
  · intro d hp h0 hdL
    unfold handle_down_payment
    dsimp only
    rw [get_session_of_some hs]
    simp only [hp]
    rw [if_neg (not_lt.mpr h0), hl]
    dsimp only
    rw [if_neg (not_le.mpr hdL)]
  · intro d hp h0 hLd
    unfold handle_down_payment
    dsimp only
    rw [get_session_of_some hs]
    simp only [hp]
    rw [if_neg (not_lt.mpr h0), hl]
    dsimp only
    rw [if_pos hLd]

/-- Witness for C6: with stored loan amount 2, the down payment 5 is
rejected with the error citing both 5 and 2. -/
theorem claim_C6_witness :
    handle_down_payment
        (setSession (fun _ => none) 0 (some (Session.mk (some 2) none none none)))
        0 ("5")
      = some (setSession (fun _ => none) 0 (some (Session.mk (some 2) none none none)),
          Reply.downPaymentTooLarge 5 2, ConvResult.toStep Step.downPayment) :=
  (claim_C6 _ 0 ("5") (Session.mk (some 2) none none none) 2
      (by simp [setSession]) rfl).2.2.2.2 5 parse_five (by norm_num) (by norm_num)

/-- Claim C2: in every reachable state, a text turn whose input fails the
current step's validation is answered with an error reply, the
conversation stays at the same step, the whole bot state (all stored
session fields included) is unchanged, and no exception escapes. -/
theorem claim_C2 {st : BotState} (hR : Reachable st) (chat : ℤ) (step : Step)
    (σ : Session) (text : String)
    (hcv : st.conv chat = some step) (hs : st.sessions chat = some σ)
    (hfail : ¬ accepts σ step text) :
    ∃ r : Reply, processTurn st chat (Turn.text text) = some (st, some r)
      ∧ isErrorReply r = true := by
  have hInv := reachable_inv hR
  cases step with
  | loanAmount =>
    refine ⟨Reply.invalidLoanAmount, ?_, rfl⟩
    unfold processTurn
    dsimp only
    rw [hcv]
    dsimp only
    unfold handle_loan_amount
    cases hp : parse_number text with
    | none =>
      dsimp only
      rw [applyResult_self hcv]
    | some a =>
      have ha : a ≤ 0 := by
        simp only [accepts, hp] at hfail
        exact not_lt.mp hfail
      dsimp only
      rw [if_pos ha]
      rw [applyResult_self hcv]
  | downPayment =>
    have hx := hInv chat
    rw [hcv] at hx
    obtain ⟨a, ha0, hsess⟩ := hx
    have hσ : σ = Session.mk (some a) none none none := by
      rw [hs] at hsess
      exact Option.some.inj hsess
    subst hσ
    unfold processTurn
    dsimp only
    rw [hcv]
    dsimp only
    unfold handle_down_payment
    dsimp only
    rw [get_session_of_some hs]
    cases hp : parse_number text with
    | none =>
      refine ⟨Reply.invalidDownPayment, ?_, rfl⟩
      dsimp only
      rw [applyResult_self hcv]
    | some d =>
      dsimp only
      by_cases hd : d < 0
      · refine ⟨Reply.invalidDownPayment, ?_, rfl⟩
        rw [if_pos hd]
        dsimp only
        rw [applyResult_self hcv]
      · have hda : ¬ d < a := by
          simp only [accepts, hp] at hfail
          intro hlt
          exact hfail ⟨le_of_not_lt hd, hlt⟩
        refine ⟨Reply.downPaymentTooLarge d a, ?_, rfl⟩
        rw [if_neg hd]
        rw [if_pos (not_lt.mp hda)]
        dsimp only
        rw [applyResult_self hcv]
  | loanTerm =>
    refine ⟨Reply.invalidLoanTerm, ?_, rfl⟩
    unfold processTurn
    dsimp only
    rw [hcv]
    dsimp only
    unfold handle_loan_term
    cases hp : parse_number text with
    | none =>
      dsimp only
      rw [applyResult_self hcv]
    | some y =>
      have hy : ¬(MIN_LOAN_TERM_YEARS ≤ y ∧ y ≤ MAX_LOAN_TERM_YEARS) := by
        simpa only [accepts, hp] using hfail
      dsimp only
      rw [if_pos hy]
      rw [applyResult_self hcv]
  | interestRate =>
    refine ⟨Reply.invalidRate, ?_, rfl⟩
    unfold processTurn
    dsimp only
    rw [hcv]
    dsimp only
    unfold handle_interest_rate
    cases hp : parse_number text with
    | none =>
      dsimp only
      rw [applyResult_self hcv]
    | some r =>
      have hr : ¬(MIN_INTEREST_RATE ≤ r ∧ r ≤ MAX_INTEREST_RATE) := by
        simpa only [accepts, hp] using hfail
      dsimp only
      rw [if_pos hr]
      dsimp only
      rw [applyResult_self hcv]

/-- Witness for C2: the non-numeric input abc at the loan-amount step of
a reachable state leaves the state unchanged and replies with an error. -/
theorem claim_C2_witness :
    ∃ r : Reply, processTurn stA 0 (Turn.text ("abc")) = some (stA, some r)
      ∧ isErrorReply r = true :=
  claim_C2 reachable_stA 0 Step.loanAmount emptySession ("abc") stA_conv
    stA_sessions (by simp [accepts, parse_abc])

/-- Claim C10: in every reachable state no turn makes a handler raise:
the down-payment comparison and the interest-rate calculator call never
see an unset (None) field, because the step-order invariant holds. -/
theorem claim_C10 {st : BotState} (hR : Reachable st) (chat : ℤ) (t : Turn) :
    processTurn st chat t ≠ none := by
  have hInv := reachable_inv hR
  cases t with
  | start => simp [processTurn]
  | cancel =>
    unfold processTurn
    dsimp only
    cases st.conv chat <;> simp
  | text s =>
    unfold processTurn
    dsimp only
    cases hcv : st.conv chat with
    | none => simp
    | some step =>
      cases step with
      | loanAmount => simp
      | loanTerm => simp
      | downPayment =>
        have hx := hInv chat
        rw [hcv] at hx
        obtain ⟨a, ha, hsess⟩ := hx
        have hsome : ∃ q, handle_down_payment st.sessions chat s = some q := by
          unfold handle_down_payment
          dsimp only
          rw [get_session_of_some hsess]
          cases hp : parse_number s with
          | none => exact ⟨_, rfl⟩
          | some d =>
            dsimp only
            by_cases hd : d < 0
            · rw [if_pos hd]
              exact ⟨_, rfl⟩
            · rw [if_neg hd]
              by_cases hge : d ≥ a
              · rw [if_pos hge]
                exact ⟨_, rfl⟩
              · rw [if_neg hge]
                exact ⟨_, rfl⟩
        obtain ⟨q, hq⟩ := hsome
        simp [hq]
      | interestRate =>
        have hx := hInv chat
        rw [hcv] at hx
        obtain ⟨a, d, y, ha, hd0, hda, hy1, hy30, hsess⟩ := hx
        have hsome : ∃ q, handle_interest_rate st.sessions chat s = some q := by
          unfold handle_interest_rate
          cases hp : parse_number s with
          | none => exact ⟨_, rfl⟩
          | some r =>
            dsimp only
            by_cases hr : MIN_INTEREST_RATE ≤ r ∧ r ≤ MAX_INTEREST_RATE
            · rw [if_neg (not_not_intro hr)]
              rw [get_session_of_some hsess]
              exact ⟨_, rfl⟩
            · rw [if_pos hr]
              exact ⟨_, rfl⟩
        obtain ⟨q, hq⟩ := hsome
        simp [hq]

/-- Witness for C10: a turn at the down-payment step of a concrete
reachable run does not crash. -/
theorem claim_C10_witness : processTurn stB 0 (Turn.text ("5")) ≠ none :=
  claim_C10 reachable_stB 0 (Turn.text ("5"))

/-- Claim C4: in a reachable state at the rate step, a valid rate turn
calls the calculator on the three stored fields plus the parsed rate,
replies with the formatted report, and deletes both the session and the
conversation key, so a later non-command text turn gets the default/help
reply. -/
theorem claim_C4 {st : BotState} (hR : Reachable st) (chat : ℤ) (text : String)
    (r : ℚ) (hcv : st.conv chat = some Step.interestRate)
    (hp : parse_number text = some r)
    (hr1 : MIN_INTEREST_RATE ≤ r) (hr2 : r ≤ MAX_INTEREST_RATE) :
    ∃ (la dp : ℚ) (y : ℤ) (st' : BotState),
      st.sessions chat = some (Session.mk (some la) (some dp) (some y) none) ∧
      processTurn st chat (Turn.text text)
        = some (st', some (Reply.results la dp y r
            (calculate_monthly_payment la dp y r))) ∧
      st'.sessions chat = none ∧ st'.conv chat = none ∧
      (∀ s2 : String, processTurn st' chat (Turn.text s2)
        = some (st', some Reply.helpDefault)) := by
  have hx := reachable_inv hR chat
  rw [hcv] at hx
  obtain ⟨a, d, y, ha, hd0, hda, hy1, hy30, hsess⟩ := hx
  have hhandler : handle_interest_rate st.sessions chat text
      = some (clear_session (setSession st.sessions chat
            (some (Session.mk (some a) (some d) (some y) (some r)))) chat,
          Reply.results a d y r (calculate_monthly_payment a d y r),
          ConvResult.endConv) := by
    unfold handle_interest_rate
    simp only [hp]
    rw [if_neg (not_not_intro ⟨hr1, hr2⟩)]
    rw [get_session_of_some hsess]
  have hconv' : (applyResult st chat
      (clear_session (setSession st.sessions chat
        (some (Session.mk (some a) (some d) (some y) (some r)))) chat)
      ConvResult.endConv).conv chat = none := by
    simp [applyResult]
  refine ⟨a, d, y,
    applyResult st chat (clear_session (setSession st.sessions chat
      (some (Session.mk (some a) (some d) (some y) (some r)))) chat)
      ConvResult.endConv,
    hsess, ?_, ?_, hconv', ?_⟩
  · unfold processTurn
    dsimp only
    rw [hcv]
    dsimp only
    rw [hhandler]
  · simp [applyResult, clear_session_self]
  · intro s2
    unfold processTurn
    dsimp only
    rw [hconv']
    rfl

/-- Witness for C4: completing the concrete run (loan 2, down payment 0,
term 1) with rate 1 produces the report and deletes the session. -/
theorem claim_C4_witness :
    ∃ (la dp : ℚ) (y : ℤ) (st' : BotState),
      stD.sessions 0 = some (Session.mk (some la) (some dp) (some y) none) ∧
      processTurn stD 0 (Turn.text ("1"))
        = some (st', some (Reply.results la dp y 1
            (calculate_monthly_payment la dp y 1))) ∧
      st'.sessions 0 = none ∧ st'.conv 0 = none ∧
      (∀ s2 : String, processTurn st' 0 (Turn.text s2)
        = some (st', some Reply.helpDefault)) :=
  claim_C4 reachable_stD 0 ("1") 1 stD_conv parse_one
    (by norm_num [MIN_INTEREST_RATE]) (by norm_num [MAX_INTEREST_RATE])

/-- Claim C9: a turn for one chat never modifies any other chat's stored
session or conversation position, and its outcome (the reply sent, or
the absence of one) depends only on the turn and on the acting chat's
own session and position, never on another chat's. -/
theorem claim_C9 (st : BotState) (chat : ℤ) (t : Turn) :
    (∀ p : BotState × Option Reply, processTurn st chat t = some p →
      ∀ c : ℤ, c ≠ chat → p.1.sessions c = st.sessions c ∧ p.1.conv c = st.conv c) ∧
    (∀ st2 : BotState, st.sessions chat = st2.sessions chat →
      st.conv chat = st2.conv chat →
      Option.map Prod.snd (processTurn st chat t)
        = Option.map Prod.snd (processTurn st2 chat t)) := by
  constructor
  · intro p hp c hc
    exact processTurn_frame hp c hc
  · intro st2 h1 h2
    cases t with
    | start => rfl
    | cancel =>
      unfold processTurn
      dsimp only
      rw [← h2]
      cases st.conv chat <;> rfl
    | text s =>
      unfold processTurn
      dsimp only
      rw [← h2]
      cases hcv : st.conv chat with
      | none => rfl
      | some step =>
        cases step with
        | loanAmount =>
          have hcg := handle_loan_amount_snd_congr st.sessions st2.sessions chat s
          dsimp only
          rw [hcg]
          rfl
        | loanTerm =>
          have hcg := handle_loan_term_snd_congr st.sessions st2.sessions chat s
          dsimp only
          rw [hcg]
          rfl
        | downPayment =>
          have hcg := handle_down_payment_snd_congr st.sessions st2.sessions chat s h1
          cases hq1 : handle_down_payment st.sessions chat s with
          | none =>
            cases hq2 : handle_down_payment st2.sessions chat s with
            | none => rfl
            | some q2 =>
              rw [hq1, hq2] at hcg
              simp at hcg
          | some q1 =>
            cases hq2 : handle_down_payment st2.sessions chat s with
            | none =>
              rw [hq1, hq2] at hcg
              simp at hcg
            | some q2 =>
              rw [hq1, hq2] at hcg
              injection hcg with hcg
              dsimp only
              rw [hcg]
              rfl
        | interestRate =>
          have hcg := handle_interest_rate_snd_congr st.sessions st2.sessions chat s h1
          cases hq1 : handle_interest_rate st.sessions chat s with
          | none =>
            cases hq2 : handle_interest_rate st2.sessions chat s with
            | none => rfl
            | some q2 =>
              rw [hq1, hq2] at hcg
              simp at hcg
          | some q1 =>
            cases hq2 : handle_interest_rate st2.sessions chat s with
            | none =>
              rw [hq1, hq2] at hcg
              simp at hcg
            | some q2 =>
              rw [hq1, hq2] at hcg
              injection hcg with hcg
              dsimp only
              rw [hcg]
              rfl

/-- Witness for C9: chat 1 gets the same reply in the initial state and
after chat 0 has started a conversation. -/
theorem claim_C9_witness :
    Option.map Prod.snd (processTurn initState 1 (Turn.text ("hi")))
      = Option.map Prod.snd (processTurn stA 1 (Turn.text ("hi"))) :=
  (claim_C9 initState 1 (Turn.text ("hi"))).2 stA
    (by simp [initState, stA_sessions_one]) (by simp [initState, stA_conv_one])

/-- Claim C3: in every reachable state, each chat's stored fields are
exactly those of the steps already passed (with accepted values, never
out of order); in particular at the rate step loan amount, down payment
and term are all set. -/
theorem claim_C3 {st : BotState} (h : Reachable st) :
    Inv st ∧
    (∀ chat : ℤ, st.conv chat = some Step.interestRate →
      ∃ (a d : ℚ) (y : ℤ), 0 < a ∧ 0 ≤ d ∧ d < a ∧ 1 ≤ y ∧ y ≤ 30 ∧
        st.sessions chat = some (Session.mk (some a) (some d) (some y) none)) := by
  refine ⟨reachable_inv h, fun chat hcv => ?_⟩
  have hx := reachable_inv h chat
  rw [hcv] at hx
  exact hx

/-- Witness for C3: the invariant at the concrete run that has reached
the rate step. -/
theorem claim_C3_witness :
    Inv stD ∧
    (∀ chat : ℤ, stD.conv chat = some Step.interestRate →
      ∃ (a d : ℚ) (y : ℤ), 0 < a ∧ 0 ≤ d ∧ d < a ∧ 1 ≤ y ∧ y ≤ 30 ∧
        stD.sessions chat = some (Session.mk (some a) (some d) (some y) none)) :=
  claim_C3 reachable_stD

end Mortgage
